import Mathlib

/-!
Verification of the Instagram media-download pipeline of this repository
(sources: src/get.ts, with a JavaScript twin in src/get_insta.js).

The relevant functions are shallowly embedded below.  Conventions:

* JavaScript numbers appearing as byte offsets, lengths and bandwidths are
  modelled as Nat / Int (the values involved are small and exact).
* Network and filesystem effects are abstracted into explicit parameters:
  a byte-range fetch oracle of type Nat -> Nat -> List Nat (returning the
  bytes of the requested inclusive range), an outcome environment of type
  String -> Outcome (resolving each download attempt, keyed by the target
  file name), and an explicit list of present files for the remux step.
* Exceptions are modelled with Except Unit; a function that cannot throw
  is given a pure return type.
* parseInt, the || default idiom and string truthiness are modelled by
  jsParseInt, jsOrS and jsTruthyS; a NaN result of parseInt is modelled
  as none.
-/

/-- Numeric value of a list of decimal digit characters (most significant
first), as computed by parseInt on a digit string. -/
def natOfDigits (cs : List Char) : Nat :=
  cs.foldl (fun n c => n * 10 + (c.toNat - 48)) 0

/-- Model of the JavaScript parseInt(s, 10): skip leading whitespace, read
an optional sign and then the longest prefix of decimal digits; if there is
no digit the result is NaN, modelled as none. -/
def jsParseInt (s : String) : Option Int :=
  let cs := s.data.dropWhile (fun c => c.isWhitespace)
  match cs with
  | '-' :: rest =>
    let ds := rest.takeWhile Char.isDigit
    if ds.isEmpty then none else some (-(natOfDigits ds : Int))
  | '+' :: rest =>
    let ds := rest.takeWhile Char.isDigit
    if ds.isEmpty then none else some ((natOfDigits ds : Int))
  | _ =>
    let ds := cs.takeWhile Char.isDigit
    if ds.isEmpty then none else some ((natOfDigits ds : Int))

/-- Model of the JavaScript idiom (x || d) for an optional string attribute
x: a missing or empty (falsy) string is replaced by the default d. -/
def jsOrS (o : Option String) (d : String) : String :=
  match o with
  | some s => if s = "" then d else s
  | none => d

/-- Truthiness of an optional string attribute: present and non-empty. -/
def jsTruthyS (o : Option String) : Bool :=
  match o with
  | some s => s != ""
  | none => false

/-- Substring test, modelling String.prototype.includes. -/
def jsIncludes (s sub : String) : Bool :=
  decide (sub.data <:+: s.data)

/-- Character-wise lower-casing, modelling String.prototype.toLowerCase on
the ASCII attribute values the pipeline compares. -/
def jsToLower (s : String) : String :=
  String.mk (s.data.map Char.toLower)

/-- Embedding of parseByteRange (src/get.ts lines 402-406): the string must
match the anchored regular expression (\d+)-(\d+), that is a non-empty run
of digits, a dash, and a non-empty run of digits reaching the end; both
runs are read as decimal numbers.  No relation between the two numbers is
checked.  A non-matching string yields null, modelled as none. -/
def parseByteRange (s : String) : Option (Nat × Nat) :=
  let (d1, r1) := s.data.span Char.isDigit
  match d1, r1 with
  | [], _ => none
  | _ :: _, '-' :: r2 =>
    let (d2, r3) := r2.span Char.isDigit
    match d2, r3 with
    | _ :: _, [] => some (natOfDigits d1, natOfDigits d2)
    | _, _ => none
  | _, _ => none

/-- The SegmentBase node of a DASH representation, with the attributes read
by downloadDashRepresentation: the range attribute of its Initialization
child and the three optional Facebook prefetch range attributes. -/
structure SegmentBase where
  rangeAttr : String
  firstSegmentRange : Option String
  secondSegmentRange : Option String
  prefetchSegmentRange : Option String
deriving DecidableEq

/-- A DASH representation with the attributes read by the pipeline
(id, bandwidth, FBContentLength on the representation node; mimeType and
codecs are used by the adaptation-set fallback detection). -/
structure DashRepresentation where
  baseURL : String
  id : Option String
  bandwidth : Option String
  contentLength : Option String
  mimeType : Option String
  codecs : Option String
  segmentBase : SegmentBase
deriving DecidableEq

/-- An adaptation set: its contentType attribute and its (possibly absent)
Representation children. -/
structure DashAdaptationSet where
  contentType : Option String
  representations : Option (List DashRepresentation)
deriving DecidableEq

/-- The declared total content length of a representation, as computed by
parseInt(repr.$.FBContentLength || "0", 10).  none models NaN. -/
def totalLenOf (repr : DashRepresentation) : Option Int :=
  jsParseInt (jsOrS repr.contentLength "0")

/-- Embedding of the segment-range collection of downloadDashRepresentation
(src/get.ts lines 429-435): push FBFirstSegmentRange and
FBSecondSegmentRange when truthy, then FBPrefetchSegmentRange when truthy
and not already textually present in the collected list. -/
def collectSegRanges (sb : SegmentBase) : List String :=
  let l0 : List String :=
    match sb.firstSegmentRange with
    | some s => if s = "" then [] else [s]
    | none => []
  let l1 : List String :=
    match sb.secondSegmentRange with
    | some s => if s = "" then l0 else l0 ++ [s]
    | none => l0
  match sb.prefetchSegmentRange with
  | some s => if s = "" then l1 else if s ∈ l1 then l1 else l1 ++ [s]
  | none => l1

/-- Embedding of downloadDashRepresentation (src/get.ts lines 408-449).
The byte-range fetcher is abstracted into the oracle fetch, which returns
the bytes of the requested inclusive range (a fetch failure would throw in
the source; the theorems below about this function concern runs in which
every fetch succeeds, so the oracle is total).  The result records, in
order, every requested (start, end) pair together with the concatenated
received bytes.  Mirrors the source exactly: a malformed initialization
range falls back to [0, 0]; with a positive declared total length one
further range from end+1 to total-1 is fetched; otherwise the collected
prefetch ranges are parsed, a malformed one is skipped (continue), and the
remaining ones are fetched in order. -/
def downloadDashRepresentation (fetch : Nat → Nat → List Nat)
    (repr : DashRepresentation) : List (Nat × Nat) × List Nat :=
  let initRange := (parseByteRange repr.segmentBase.rangeAttr).getD (0, 0)
  let initBuf := fetch initRange.1 initRange.2
  match totalLenOf repr with
  | some t =>
    if 0 < t then
      let startByte := initRange.2 + 1
      let endByte := (t - 1).toNat
      ([initRange, (startByte, endByte)], initBuf ++ fetch startByte endByte)
    else
      let parsed := (collectSegRanges repr.segmentBase).filterMap parseByteRange
      (initRange :: parsed,
        initBuf ++ (parsed.map (fun pr => fetch pr.1 pr.2)).flatten)
  | none =>
    let parsed := (collectSegRanges repr.segmentBase).filterMap parseByteRange
    (initRange :: parsed,
      initBuf ++ (parsed.map (fun pr => fetch pr.1 pr.2)).flatten)

/-- Writing a file into the modelled set of present files. -/
def insertFile (n : String) (fs : List String) : List String :=
  if n ∈ fs then fs else n :: fs

/-- Unlinking a file from the modelled set of present files. -/
def removeFile (n : String) (fs : List String) : List String :=
  fs.filter (fun m => m != n)

/-- Embedding of mergeDashVideoAudio (src/get.ts lines 451-464) as a
transformer of the set of present files.  execOk abstracts the execSync
invocation of ffmpeg: true means exit code zero (the output file is
produced and statSync succeeds), false means execSync threw (non-zero
exit).  The try/catch swallows any error from the invocation, logging it
with logDebug only, and the finally block unlinks both temporary files,
each unlink wrapped in its own try/catch.  The second component is the
error surfaced to the caller; because the catch swallows the ffmpeg error,
it is none on every path. -/
def mergeDashVideoAudio (execOk : Bool) (outPath : String)
    (fs0 : List String) : List String × Option Unit :=
  let fs1 := insertFile "temp_video.mp4" fs0
  let fs2 := insertFile "temp_audio.mp4" fs1
  let fs3 := if execOk then insertFile outPath fs2 else fs2
  let fs4 := removeFile "temp_audio.mp4" (removeFile "temp_video.mp4" fs3)
  (fs4, none)

/-- The sort key of the bandwidth ranking: parseInt(r.$.bandwidth || "0").
none models NaN (a present, non-empty, non-numeric attribute). -/
def bandwidthKey (r : DashRepresentation) : Option Int :=
  jsParseInt (jsOrS r.bandwidth "0")

/-- The comparator passed to Array.prototype.sort in downloadBestQualityDash
(src/get.ts line 491): (a, b) => parseInt(b.bandwidth||"0") -
parseInt(a.bandwidth||"0").  Per the ECMAScript SortCompare operation a NaN
comparator result is treated as +0, so any comparison involving a NaN key
reports a tie. -/
def jsCompareBandwidth (a b : DashRepresentation) : Int :=
  match bandwidthKey a, bandwidthKey b with
  | some ka, some kb => kb - ka
  | _, _ => 0

/-- The element order induced by the comparator: a may be placed before b
exactly when the comparator is non-positive. -/
def reprLe (a b : DashRepresentation) : Bool :=
  jsCompareBandwidth a b ≤ 0

/-- Embedding of the bandwidth ranking of downloadBestQualityDash
(src/get.ts lines 491-494): sort by the comparator and take element 0
(none for an empty list).  ECMAScript requires Array.prototype.sort to be
stable and, for a consistent comparator, sorted according to it; the
unique such result is computed by the stable List.mergeSort.  The
embedding is therefore faithful whenever the comparator is consistent on
the input (in particular when every bandwidth key is a number, and on any
two-element input). -/
def pickBestRepresentation (l : List DashRepresentation) :
    Option DashRepresentation :=
  (l.mergeSort reprLe).head?

/-- The direct detection of a video adaptation set:
(a.$.contentType || "").toLowerCase() === "video". -/
def videoTagged (a : DashAdaptationSet) : Bool :=
  jsToLower (jsOrS a.contentType "") == "video"

/-- The direct detection of an audio adaptation set. -/
def audioTagged (a : DashAdaptationSet) : Bool :=
  jsToLower (jsOrS a.contentType "") == "audio"

/-- Fallback loop of findVideoAdaptationSet (src/get.ts lines 512-519):
skip sets without Representation children; inspect the attributes of the
first representation; reading them on an empty Representation array would
raise a TypeError (reps[0] is undefined), modelled as Except.error. -/
def videoFallback : List DashAdaptationSet → Except Unit (Option DashAdaptationSet)
  | [] => .ok none
  | a :: rest =>
    match a.representations with
    | none => videoFallback rest
    | some [] => .error ()
    | some (r :: _) =>
      if (match r.mimeType with
          | some m => m != "" && jsIncludes m "video"
          | none => false) then .ok (some a)
      else if (match r.codecs with
          | some c => c != "" && jsIncludes c "avc1"
          | none => false) then .ok (some a)
      else videoFallback rest

/-- Fallback loop of findAudioAdaptationSet (src/get.ts lines 526-533). -/
def audioFallback : List DashAdaptationSet → Except Unit (Option DashAdaptationSet)
  | [] => .ok none
  | a :: rest =>
    match a.representations with
    | none => audioFallback rest
    | some [] => .error ()
    | some (r :: _) =>
      if (match r.mimeType with
          | some m => m != "" && jsIncludes m "audio"
          | none => false) then .ok (some a)
      else if (match r.codecs with
          | some c => c != "" && jsIncludes c "mp4a"
          | none => false) then .ok (some a)
      else audioFallback rest

/-- Embedding of findVideoAdaptationSet (src/get.ts lines 508-520): an
adaptation set whose contentType is case-insensitively video is found
first (Array.prototype.find, first match in list order); otherwise the
fallback loop runs. -/
def findVideoAdaptationSet (sets : List DashAdaptationSet) :
    Except Unit (Option DashAdaptationSet) :=
  match sets.find? videoTagged with
  | some a => .ok (some a)
  | none => videoFallback sets

/-- Embedding of findAudioAdaptationSet (src/get.ts lines 522-534). -/
def findAudioAdaptationSet (sets : List DashAdaptationSet) :
    Except Unit (Option DashAdaptationSet) :=
  match sets.find? audioTagged with
  | some a => .ok (some a)
  | none => audioFallback sets

/-- A display resource of an Instagram media item (url and width). -/
structure InstagramDisplayResource where
  src : String
  config_width : Nat
deriving DecidableEq

/-- The selection step of downloadHighestResImage (src/get.ts line 538):
displayResources.reduce((acc, cur) => cur.config_width > acc.config_width
? cur : acc).  reduce without an initial value starts from the first
element and throws on an empty array (the call site guards with
length > 0), modelled as none. -/
def bestDisplayResource :
    List InstagramDisplayResource → Option InstagramDisplayResource
  | [] => none
  | d :: t => some (t.foldl
      (fun acc cur =>
        if cur.config_width > acc.config_width then cur else acc) d)

/-- Outcome of one download attempt, as resolved by the environment:
ok is a 2xx response whose body is saved where the source saves it;
softFail is a received non-2xx response (and, for the DASH pipeline, any
run of downloadBestQualityDash that returns normally without saving a
file, such as its early returns or a swallowed ffmpeg failure); thrown is
an exception raised by the underlying fetch or filesystem call. -/
inductive Outcome where
  | ok
  | softFail
  | thrown
deriving DecidableEq

/-- An Instagram media item, with the fields read by
extractMediaRecursive: the optional carousel children
(edge_sidecar_to_children.edges, each edge contributing its node), the
is_video flag, the optional DASH manifest
(dash_info.video_dash_manifest), the optional direct video_url and the
display_resources array. -/
inductive InstagramMediaItem where
  | mk (children : Option (List InstagramMediaItem)) (is_video : Bool)
      (dash_manifest : Option String) (video_url : Option String)
      (display_resources : List InstagramDisplayResource)

mutual
/-- Embedding of extractMediaRecursive (src/get.ts lines 765-808).  The
environment env resolves each download attempt, keyed by the produced file
name; the result is the list of files produced together with the returned
downloadCount, or Except.error for an uncaught exception.  Mirrors the
source: a carousel item processes child i (0-based) under the name
postName_(i+1) with no try/catch around the recursion, so a thrown child
error propagates; the video branch with a truthy DASH manifest awaits
downloadBestQualityDash without a catch (thrown propagates) and increments
the count whenever it returns, whether or not a file was saved; the direct
video_url branch has a try/catch (thrown is caught, nothing counted) and
performs no res.ok check, so even a non-2xx body is saved and counted; the
image branch runs whenever display_resources is non-empty (a plain if,
sequential to the video branch), awaits downloadHighestResImage without a
catch, and increments the count whenever it returns, even when a non-2xx
response made it return without saving.  The folder name, constant through
the recursion, is omitted. -/
def extractMediaRecursive (env : String → Outcome) :
    InstagramMediaItem → String → Except Unit (List String × Nat)
  | .mk (some edges) _ _ _ _, postName => extractChildren env edges postName 1
  | .mk none is_video dash_manifest video_url display_resources, postName => do
    let vres : List String × Nat ←
      if is_video then
        if jsTruthyS dash_manifest then
          match env (postName ++ ".mp4") with
          | .thrown => .error ()
          | .ok => .ok ([postName ++ ".mp4"], 1)
          | .softFail => .ok (([] : List String), 1)
        else if jsTruthyS video_url then
          match env (postName ++ ".mp4") with
          | .thrown => .ok (([] : List String), 0)
          | _ => .ok ([postName ++ ".mp4"], 1)
        else .ok (([] : List String), 0)
      else .ok (([] : List String), 0)
    let ires : List String × Nat ←
      if display_resources.isEmpty then .ok (([] : List String), 0)
      else
        match env (postName ++ ".jpg") with
        | .thrown => .error ()
        | .ok => .ok ([postName ++ ".jpg"], 1)
        | .softFail => .ok (([] : List String), 1)
    .ok (vres.1 ++ ires.1, vres.2 + ires.2)

/-- The carousel loop of extractMediaRecursive: process each child under
postName_i (i starting from 1, the source writes postName + "_" + (i+1)
for the 0-based index i), accumulating files and counts; no try/catch. -/
def extractChildren (env : String → Outcome) :
    List InstagramMediaItem → String → Nat → Except Unit (List String × Nat)
  | [], _, _ => .ok ([], 0)
  | c :: rest, postName, i => do
    let r ← extractMediaRecursive env c (postName ++ "_" ++ toString i)
    let rs ← extractChildren env rest postName (i + 1)
    .ok (r.1 ++ rs.1, r.2 + rs.2)
end

instance : DecidableEq (Except Unit (List String × Nat)) := fun a b =>
  match a, b with
  | .ok x, .ok y => if h : x = y then .isTrue (by rw [h]) else .isFalse (by simp [h])
  | .error _, .error _ => .isTrue (by rfl)
  | .ok _, .error _ => .isFalse (by simp)
  | .error _, .ok _ => .isFalse (by simp)

/-- The branch condition of downloadDashRepresentation: the declared total
content length parses to a number and is positive (a NaN compares false). -/
def posTotalLen (repr : DashRepresentation) : Bool :=
  match totalLenOf repr with
  | some t => 0 < t
  | none => false

/-- The bandwidth of a representation with a missing or unparseable
attribute treated as 0: the reading of the sort key used by the claim. -/
def keyBW (r : DashRepresentation) : Int :=
  (bandwidthKey r).getD 0

/-- The first element of a list attaining the maximal value of K: the
element the claims describe as the first-listed maximum.  Stated from the
specification wording, to be compared with the embedded ranking. -/
def firstMaxBy (K : α → Int) : List α → Option α
  | [] => none
  | x :: t =>
    match firstMaxBy K t with
    | none => some x
    | some m => some (if K x < K m then m else x)

/-- The per-child results of a carousel walk: some list of (files, count)
pairs when every child returns normally under its positional name, none
when some child throws. -/
def childResults (env : String → Outcome) :
    List InstagramMediaItem → String → Nat → Option (List (List String × Nat))
  | [], _, _ => some []
  | c :: rest, postName, i =>
    match extractMediaRecursive env c (postName ++ "_" ++ toString i) with
    | .ok r => (childResults env rest postName (i + 1)).map (r :: ·)
    | .error _ => none

/-- A leaf item to which exactly one media branch applies: a video with a
downloadable source and no display resources, or a non-video with display
resources.  Such a leaf produces exactly one counted download when every
underlying operation succeeds. -/
def simpleLeaf : InstagramMediaItem → Bool
  | .mk children iv dm vu drs =>
    children.isNone &&
      (if iv then (jsTruthyS dm || jsTruthyS vu) && drs.isEmpty
       else !drs.isEmpty)

/-- Fetch oracle returning exactly the requested number of bytes for an
inclusive range (all zero bytes; only lengths and call traces matter). -/
def exFetchRepl : Nat → Nat → List Nat :=
  fun a b => List.replicate (b + 1 - a) 0

/-- A representation with a declared total length of 100 and an
initialization range 5-9 that starts after byte 0. -/
def exReprC2 : DashRepresentation :=
  { baseURL := "u", id := none, bandwidth := none, contentLength := some "100"
    mimeType := none, codecs := none
    segmentBase := { rangeAttr := "5-9", firstSegmentRange := none,
                     secondSegmentRange := none, prefetchSegmentRange := none } }

/-- A representation with a declared total length of 100 and a malformed
initialization range string. -/
def exReprC4 : DashRepresentation :=
  { exReprC2 with
    segmentBase := { rangeAttr := "bogus", firstSegmentRange := none,
                     secondSegmentRange := none, prefetchSegmentRange := none } }

/-- A representation without declared total length whose second segment
range and prefetch range are textually identical. -/
def exReprC3 : DashRepresentation :=
  { exReprC2 with
    contentLength := none
    segmentBase := { rangeAttr := "0-99", firstSegmentRange := some "100-199",
                     secondSegmentRange := some "200-299",
                     prefetchSegmentRange := some "200-299" } }

/-- A representation whose bandwidth attribute is present but not numeric:
parseInt yields NaN, so every comparison against it reports a tie. -/
def reprNaN : DashRepresentation :=
  { exReprC2 with contentLength := none, bandwidth := some "abc" }

/-- A representation with bandwidth 100. -/
def repr100 : DashRepresentation :=
  { reprNaN with bandwidth := some "100" }

/-- A representation with bandwidth 50. -/
def repr50 : DashRepresentation :=
  { reprNaN with bandwidth := some "50" }

/-- An adaptation set tagged with contentType Video (case-insensitive
match is required by the source). -/
def exVideoSet : DashAdaptationSet :=
  { contentType := some "Video", representations := some [repr100] }

/-- An adaptation set tagged with contentType audio. -/
def exAudioSet : DashAdaptationSet :=
  { contentType := some "audio", representations := some [repr50] }

/-- Environment in which every download attempt is a 2xx success. -/
def envAllOk : String → Outcome := fun _ => .ok

/-- Environment in which every download attempt receives a non-2xx
response (a caught, soft failure). -/
def envAllSoft : String → Outcome := fun _ => .softFail

/-- Environment in which the download for the first carousel child (file
p_1.mp4) throws and every other attempt succeeds. -/
def envThrow1 : String → Outcome :=
  fun s => if s = "p_1.mp4" then .thrown else .ok

/-- A video leaf with a DASH manifest that also carries display resources:
both the video branch and the image branch of extractMediaRecursive apply
to it. -/
def exLeafBoth : InstagramMediaItem :=
  .mk none true (some "m") none [{ src := "s", config_width := 100 }]

/-- An image-only leaf. -/
def exLeafImage : InstagramMediaItem :=
  .mk none false none none [{ src := "s", config_width := 7 }]

/-- A video leaf with a DASH manifest and nothing else. -/
def exLeafVideo : InstagramMediaItem :=
  .mk none true (some "m") none []

/-- A two-child carousel: a DASH video leaf followed by an image leaf. -/
def exCarouselC1 : InstagramMediaItem :=
  .mk (some [exLeafVideo, exLeafImage]) false none none []

/-- A one-child carousel whose single leaf is both a video and an image. -/
def exCarouselBoth : InstagramMediaItem :=
  .mk (some [exLeafBoth]) false none none []


/-! Helper lemmas. -/

theorem takeWhile_all_pos {p : Char → Bool} {l : List Char}
    (h : ∀ c ∈ l, p c = true) : l.takeWhile p = l :=
  List.takeWhile_eq_self_iff.mpr h

theorem dropWhile_all_pos {p : Char → Bool} {l : List Char}
    (h : ∀ c ∈ l, p c = true) : l.dropWhile p = [] := by
  have hs := List.takeWhile_append_dropWhile p l
  rw [takeWhile_all_pos h] at hs
  have hlen := congrArg List.length hs
  simp only [List.length_append] at hlen
  have : (l.dropWhile p).length = 0 := by omega
  exact List.eq_nil_of_length_eq_zero this

theorem span_all_pos {p : Char → Bool} {l : List Char}
    (h : ∀ c ∈ l, p c = true) : l.span p = (l, []) := by
  rw [List.span_eq_take_drop, takeWhile_all_pos h, dropWhile_all_pos h]

theorem span_pred_append {p : Char → Bool} {x : Char} (hx : p x = false)
    (d r : List Char) (hd : ∀ c ∈ d, p c = true) :
    (d ++ x :: r).span p = (d, x :: r) := by
  rw [List.span_eq_take_drop]
  induction d with
  | nil => simp [List.takeWhile_cons, List.dropWhile_cons, hx]
  | cons c t ih =>
    have hc : p c = true := hd c (by simp)
    have ht : ∀ a ∈ t, p a = true := fun a ha => hd a (by simp [ha])
    have h2 := ih ht
    simp only [Prod.mk.injEq] at h2
    simp only [List.cons_append, List.takeWhile_cons, List.dropWhile_cons, hc,
      Prod.mk.injEq]
    exact ⟨by simp [h2.1], by simp [h2.2]⟩

theorem parseByteRange_digits (d1 d2 : List Char) (h1 : d1 ≠ []) (h2 : d2 ≠ [])
    (hd1 : ∀ c ∈ d1, c.isDigit = true) (hd2 : ∀ c ∈ d2, c.isDigit = true) :
    parseByteRange (String.mk (d1 ++ '-' :: d2)) =
      some (natOfDigits d1, natOfDigits d2) := by
  have hdash : ('-').isDigit = false := by decide
  unfold parseByteRange
  simp only [String.data]
  rw [span_pred_append hdash d1 d2 hd1]
  match d1, h1 with
  | c :: t, _ =>
    simp only
    rw [span_all_pos hd2]
    match d2, h2 with
    | c2 :: t2, _ => simp


theorem parseByteRange_some_form (s : String) :
    parseByteRange s ≠ none →
      ∃ d1 d2, s.data = d1 ++ '-' :: d2 ∧ d1 ≠ [] ∧ d2 ≠ [] ∧
        (∀ c ∈ d1, c.isDigit = true) ∧ (∀ c ∈ d2, c.isDigit = true) := by
  intro h
  unfold parseByteRange at h
  rw [List.span_eq_take_drop] at h
  split at h
  next d1 r1 heqp =>
  simp only [Prod.mk.injEq] at heqp
  obtain ⟨heq1, heq2⟩ := heqp
  split at h
  · simp at h
  · next c t r2 =>
    rw [List.span_eq_take_drop] at h
    split at h
    next d2 r3 heqp2 =>
    simp only [Prod.mk.injEq] at heqp2
    obtain ⟨heq3, heq4⟩ := heqp2
    split at h
    · next c2 t2 =>
      next heq3 heq4 =>
      refine ⟨c :: t, c2 :: t2, ?_, by simp, by simp, ?_, ?_⟩
      · have hs1 := List.takeWhile_append_dropWhile Char.isDigit s.data
        rw [heq1, heq2] at hs1
        have hs2 := List.takeWhile_append_dropWhile Char.isDigit r2
        rw [heq3, heq4] at hs2
        rw [← hs1, ← hs2]
        simp
      · intro x hx
        exact List.mem_takeWhile_imp (heq1 ▸ hx)
      · intro x hx
        exact List.mem_takeWhile_imp (heq3 ▸ hx)
    · simp at h
  · simp at h

theorem find?_of_countP_eq_one {p : α → Bool} :
    ∀ {l : List α} {x : α}, l.countP p = 1 → x ∈ l → p x = true →
      l.find? p = some x := by
  intro l
  induction l with
  | nil => intro x h hx; simp at hx
  | cons a t ih =>
    intro x hcount hmem hpx
    by_cases hpa : p a = true
    · rw [List.find?_cons_of_pos _ hpa]
      rw [List.countP_cons, if_pos hpa] at hcount
      have ht0 : t.countP p = 0 := by omega
      have hnone : ∀ y ∈ t, ¬ p y = true := by
        intro y hy hpy
        have := List.countP_eq_zero.mp ht0 y hy
        simp [hpy] at this
      rcases List.mem_cons.mp hmem with h | h
      · rw [h]
      · exact absurd hpx (hnone x h)
    · rw [List.find?_cons_of_neg _ hpa]
      rw [List.countP_cons, if_neg hpa] at hcount
      rcases List.mem_cons.mp hmem with h | h
      · rw [h] at hpx; exact absurd hpx hpa
      · exact ih (by omega) h hpx

theorem merge_congr {le₁ le₂ : α → α → Bool} :
    ∀ (xs ys : List α), (∀ x ∈ xs, ∀ y ∈ ys, le₁ x y = le₂ x y) →
      List.merge xs ys le₁ = List.merge xs ys le₂
  | [], ys, _ => by simp
  | x :: xs, [], _ => by simp
  | x :: xs, y :: ys, h => by
    rw [List.cons_merge_cons, List.cons_merge_cons, h x (by simp) y (by simp)]
    by_cases hxy : le₂ x y = true
    · rw [if_pos hxy, if_pos hxy,
        merge_congr xs (y :: ys) (fun a ha b hb => h a (by simp [ha]) b hb)]
    · rw [if_neg hxy, if_neg hxy,
        merge_congr (x :: xs) ys (fun a ha b hb => h a ha b (by simp [hb]))]
termination_by xs ys => xs.length + ys.length

theorem mergeSort_congr {le₁ le₂ : α → α → Bool} :
    ∀ (l : List α), (∀ x ∈ l, ∀ y ∈ l, le₁ x y = le₂ x y) →
      l.mergeSort le₁ = l.mergeSort le₂
  | [], _ => by simp
  | [a], _ => by simp
  | a :: b :: xs, h => by
    have hf : (List.splitInTwo ⟨a :: b :: xs, rfl⟩).1.1.length < xs.length + 1 + 1 := by
      simp [List.splitInTwo_fst]; omega
    have hs : (List.splitInTwo ⟨a :: b :: xs, rfl⟩).2.1.length < xs.length + 1 + 1 := by
      simp [List.splitInTwo_snd]; omega
    rw [List.mergeSort, List.mergeSort]
    have hfsub : ∀ x ∈ (List.splitInTwo ⟨a :: b :: xs, rfl⟩).1.1, x ∈ a :: b :: xs := by
      intro x hx
      rw [List.splitInTwo_fst] at hx
      exact List.take_subset _ _ hx
    have hssub : ∀ x ∈ (List.splitInTwo ⟨a :: b :: xs, rfl⟩).2.1, x ∈ a :: b :: xs := by
      intro x hx
      rw [List.splitInTwo_snd] at hx
      exact List.drop_subset _ _ hx
    rw [mergeSort_congr (List.splitInTwo ⟨a :: b :: xs, rfl⟩).1.1
      (fun x hx y hy => h x (hfsub x hx) y (hfsub y hy))]
    rw [mergeSort_congr (List.splitInTwo ⟨a :: b :: xs, rfl⟩).2.1
      (fun x hx y hy => h x (hssub x hx) y (hssub y hy))]
    apply merge_congr
    intro x hx y hy
    rw [List.mem_mergeSort] at hx hy
    exact h x (hfsub x hx) y (hssub y hy)
termination_by l => l.length

theorem firstMaxBy_eq_none_iff {K : α → Int} :
    ∀ {l : List α}, firstMaxBy K l = none ↔ l = [] := by
  intro l
  cases l with
  | nil => simp [firstMaxBy]
  | cons x t =>
    simp only [firstMaxBy]
    cases firstMaxBy K t <;> simp

theorem firstMaxBy_spec {K : α → Int} :
    ∀ {l : List α} {m : α}, firstMaxBy K l = some m →
      m ∈ l ∧ (∀ x ∈ l, K x ≤ K m) ∧
        ∃ p s, l = p ++ m :: s ∧ ∀ x ∈ p, K x < K m := by
  intro l
  induction l with
  | nil => intro m h; simp [firstMaxBy] at h
  | cons a t ih =>
    intro m h
    simp only [firstMaxBy] at h
    cases hft : firstMaxBy K t with
    | none =>
      rw [hft] at h
      have ht : t = [] := firstMaxBy_eq_none_iff.mp hft
      simp only [Option.some.injEq] at h
      subst h
      subst ht
      exact ⟨by simp, by simp, [], [], by simp, by simp⟩
    | some m' =>
      rw [hft] at h
      simp only [Option.some.injEq] at h
      obtain ⟨hmem, hmax, p, s, hps, hlt⟩ := ih hft
      by_cases hcmp : K a < K m'
      · rw [if_pos hcmp] at h
        subst h
        refine ⟨by simp [hmem], ?_, a :: p, s, by simp [hps], ?_⟩
        · intro x hx
          rcases List.mem_cons.mp hx with hx | hx
          · subst hx; omega
          · exact hmax x hx
        · intro x hx
          rcases List.mem_cons.mp hx with hx | hx
          · subst hx; exact hcmp
          · exact hlt x hx
      · rw [if_neg hcmp] at h
        subst h
        refine ⟨by simp, ?_, [], t, by simp, by simp⟩
        intro x hx
        rcases List.mem_cons.mp hx with hx | hx
        · subst hx; omega
        · have := hmax x hx
          omega

theorem head?_mergeSort_firstMaxBy {K : α → Int} :
    ∀ (l : List α),
      (l.mergeSort (fun a b => decide (K b ≤ K a))).head? = firstMaxBy K l := by
  have trans : ∀ (a b c : α), (decide (K b ≤ K a)) → (decide (K c ≤ K b)) →
      (decide (K c ≤ K a)) := by
    intro a b c hab hbc
    simp only [decide_eq_true_eq] at hab hbc ⊢
    omega
  have total : ∀ (a b : α),
      (decide (K b ≤ K a) || decide (K a ≤ K b)) = true := by
    intro a b
    simp only [Bool.or_eq_true, decide_eq_true_eq]
    omega
  intro l
  induction l with
  | nil => simp [firstMaxBy]
  | cons a t ih =>
    obtain ⟨l₁, l₂, e₁, e₂, hl₁⟩ :=
      @List.mergeSort_cons _ (fun a b => decide (K b ≤ K a)) trans total a t
    cases hft : firstMaxBy K t with
    | none =>
      have ht : t = [] := firstMaxBy_eq_none_iff.mp hft
      subst ht
      simp [firstMaxBy]
    | some m =>
      rw [hft] at ih
      cases l₁ with
      | nil =>
        simp only [List.nil_append] at e₁ e₂
        rw [e₁]
        rw [e₂] at ih
        simp only [firstMaxBy, hft, List.head?_cons]
        cases l₂ with
        | nil => simp at ih
        | cons c l₂' =>
          simp only [List.head?_cons, Option.some.injEq] at ih
          subst ih
          have hsorted := List.sorted_mergeSort trans total (a :: t)
          rw [e₁] at hsorted
          have ham : decide (K c ≤ K a) = true :=
            List.rel_of_pairwise_cons hsorted (by simp)
          simp only [decide_eq_true_eq] at ham
          rw [if_neg (by omega)]
      | cons c l₁' =>
        rw [e₁]
        rw [e₂] at ih
        simp only [List.cons_append, List.head?_cons, Option.some.injEq] at ih ⊢
        subst ih
        have hca := hl₁ c (by simp)
        simp only [Bool.not_eq_true', decide_eq_false_iff_not] at hca
        simp only [firstMaxBy, hft, Option.some.injEq]
        rw [if_pos (by omega)]

theorem reprLe_eq_keyBW {a b : DashRepresentation}
    (ha : (bandwidthKey a).isSome) (hb : (bandwidthKey b).isSome) :
    reprLe a b = decide (keyBW b ≤ keyBW a) := by
  obtain ⟨ka, hka⟩ := Option.isSome_iff_exists.mp ha
  obtain ⟨kb, hkb⟩ := Option.isSome_iff_exists.mp hb
  simp only [reprLe, jsCompareBandwidth, keyBW, hka, hkb, Option.getD_some]
  rw [decide_eq_decide]
  omega

theorem pickBest_eq_firstMaxBy (l : List DashRepresentation)
    (hk : ∀ r ∈ l, (bandwidthKey r).isSome) :
    pickBestRepresentation l = firstMaxBy keyBW l := by
  unfold pickBestRepresentation
  rw [@mergeSort_congr _ reprLe (fun a b => decide (keyBW b ≤ keyBW a)) l
    (fun x hx y hy => reprLe_eq_keyBW (hk x hx) (hk y hy))]
  exact head?_mergeSort_firstMaxBy l

theorem foldl_best_spec :
    ∀ (t : List InstagramDisplayResource) (a0 : InstagramDisplayResource),
      ∃ m, t.foldl
          (fun acc cur =>
            if cur.config_width > acc.config_width then cur else acc) a0 = m ∧
        m ∈ a0 :: t ∧ (∀ x ∈ a0 :: t, x.config_width ≤ m.config_width) ∧
        ∃ p s, a0 :: t = p ++ m :: s ∧
          ∀ x ∈ p, x.config_width < m.config_width := by
  intro t
  induction t with
  | nil =>
    intro a0
    exact ⟨a0, rfl, by simp, by simp, [], [], by simp, by simp⟩
  | cons d t ih =>
    intro a0
    by_cases hd : d.config_width > a0.config_width
    · obtain ⟨m, hm, hmem, hmax, p, s, hps, hlt⟩ := ih d
      have ham : a0.config_width < m.config_width := by
        have := hmax d (by simp)
        omega
      refine ⟨m, ?_, ?_, ?_, a0 :: p, s, ?_, ?_⟩
      · simp only [List.foldl_cons, if_pos hd]; exact hm
      · rcases List.mem_cons.mp hmem with h | h
        · subst h; simp
        · simp [h]
      · intro x hx
        rcases List.mem_cons.mp hx with h | h
        · subst h; omega
        · exact hmax x h
      · simp [← hps]
      · intro x hx
        rcases List.mem_cons.mp hx with h | h
        · subst h; exact ham
        · exact hlt x h
    · obtain ⟨m, hm, hmem, hmax, p, s, hps, hlt⟩ := ih a0
      have hdm : d.config_width ≤ m.config_width := by
        have := hmax a0 (by simp)
        omega
      refine ⟨m, ?_, ?_, ?_, ?_⟩
      · simp only [List.foldl_cons, if_neg hd]; exact hm
      · rcases List.mem_cons.mp hmem with h | h
        · subst h; simp
        · simp [h]
      · intro x hx
        rcases List.mem_cons.mp hx with h | h
        · rw [h]; exact hmax a0 (by simp)
        · rcases List.mem_cons.mp h with h | h
          · rw [h]; exact hdm
          · exact hmax x (by simp [h])
      · cases p with
        | nil =>
          simp only [List.nil_append, List.cons.injEq] at hps
          refine ⟨[], d :: s, ?_, by simp⟩
          simp [hps.1, hps.2]
        | cons q p' =>
          simp only [List.cons_append, List.cons.injEq] at hps
          have hq : a0.config_width < m.config_width := by
            have := hlt q (by simp)
            rw [← hps.1] at this
            exact this
          refine ⟨q :: d :: p', s, ?_, ?_⟩
          · simp [hps.1, ← hps.2]
          · intro x hx
            rcases List.mem_cons.mp hx with h | h
            · subst h; rw [hps.1] at hq; exact hq
            · rcases List.mem_cons.mp h with h | h
              · subst h; omega
              · exact hlt x (by simp [h])

theorem bestDisplayResource_spec (d : InstagramDisplayResource)
    (t : List InstagramDisplayResource) :
    ∃ m, bestDisplayResource (d :: t) = some m ∧ m ∈ d :: t ∧
      (∀ x ∈ d :: t, x.config_width ≤ m.config_width) ∧
      ∃ p s, d :: t = p ++ m :: s ∧
        ∀ x ∈ p, x.config_width < m.config_width := by
  obtain ⟨m, hm, hmem, hmax, p, s, hps, hlt⟩ := foldl_best_spec t d
  exact ⟨m, by simp [bestDisplayResource, hm], hmem, hmax, p, s, hps, hlt⟩

theorem extract_carousel_eq (env : String → Outcome)
    (cs : List InstagramMediaItem) (iv : Bool) (dm vu : Option String)
    (drs : List InstagramDisplayResource) (base : String) :
    extractMediaRecursive env (.mk (some cs) iv dm vu drs) base =
      extractChildren env cs base 1 := rfl

theorem extractChildren_of_childResults (env : String → Outcome) (base : String) :
    ∀ (cs : List InstagramMediaItem) (i : Nat)
      (rs : List (List String × Nat)),
      childResults env cs base i = some rs →
      extractChildren env cs base i =
        .ok ((rs.map Prod.fst).flatten, (rs.map Prod.snd).sum) := by
  intro cs
  induction cs with
  | nil =>
    intro i rs h
    simp only [childResults, Option.some.injEq] at h
    subst h
    simp [extractChildren]
  | cons c rest ih =>
    intro i rs h
    simp only [childResults] at h
    cases hx : extractMediaRecursive env c (base ++ "_" ++ toString i) with
    | error e => rw [hx] at h; simp at h
    | ok r =>
      rw [hx] at h
      simp only [Option.map_eq_some'] at h
      obtain ⟨rs', hrs', hrs⟩ := h
      subst hrs
      simp only [extractChildren, hx]
      rw [ih (i + 1) rs' hrs']
      rfl

theorem extract_simpleLeaf (env : String → Outcome)
    (hok : ∀ s, env s = .ok) (c : InstagramMediaItem)
    (hsl : simpleLeaf c = true) (nm : String) :
    ∃ f, extractMediaRecursive env c nm = .ok ([f], 1) := by
  obtain ⟨children, iv, dm, vu, drs⟩ := c
  simp only [simpleLeaf, Bool.and_eq_true, Option.isNone_iff_eq_none] at hsl
  obtain ⟨hch, hbr⟩ := hsl
  subst hch
  cases iv with
  | true =>
    simp only [if_true, Bool.and_eq_true, Bool.or_eq_true, List.isEmpty_iff] at hbr
    obtain ⟨hsrc, hdrs⟩ := hbr
    subst hdrs
    refine ⟨nm ++ ".mp4", ?_⟩
    rcases hsrc with hdm | hvu
    · simp only [extractMediaRecursive, hdm, hok, if_true]
      rfl
    · by_cases hdm : jsTruthyS dm = true
      · simp only [extractMediaRecursive, hdm, hok, if_true]
        rfl
      · rw [Bool.not_eq_true] at hdm
        simp only [extractMediaRecursive, hdm, hvu, hok, if_true, Bool.false_eq_true,
          if_false]
        rfl
  | false =>
    simp only [Bool.false_eq_true, if_false] at hbr
    rw [Bool.not_eq_true'] at hbr
    refine ⟨nm ++ ".jpg", ?_⟩
    simp only [extractMediaRecursive, hok, hbr, Bool.false_eq_true, if_false]
    rfl

theorem extractChildren_all_simple (env : String → Outcome)
    (hok : ∀ s, env s = .ok) (base : String) :
    ∀ (cs : List InstagramMediaItem) (i : Nat),
      (∀ c ∈ cs, simpleLeaf c = true) →
      ∃ fs, extractChildren env cs base i = .ok (fs, cs.length) := by
  intro cs
  induction cs with
  | nil => intro i h; exact ⟨[], rfl⟩
  | cons c rest ih =>
    intro i h
    obtain ⟨f, hf⟩ := extract_simpleLeaf env hok c (h c (by simp))
      (base ++ "_" ++ toString i)
    obtain ⟨fs, hfs⟩ := ih (i + 1) (fun x hx => h x (by simp [hx]))
    refine ⟨[f] ++ fs, ?_⟩
    simp only [extractChildren, hf]
    rw [hfs]
    simp only [List.length_cons]
    show Except.ok (([f] ++ fs : List String), 1 + rest.length) =
      Except.ok ([f] ++ fs, rest.length + 1)
    rw [Nat.add_comm]

theorem downloadDash_tail_of_not_posTotal (fetch : Nat → Nat → List Nat)
    (repr : DashRepresentation) (hpos : posTotalLen repr = false) :
    (downloadDashRepresentation fetch repr).1.tail =
      (collectSegRanges repr.segmentBase).filterMap parseByteRange := by
  unfold downloadDashRepresentation
  cases htl : totalLenOf repr with
  | some t =>
    simp only [posTotalLen, htl] at hpos
    dsimp only
    rw [if_neg (of_decide_eq_false hpos)]
    rfl
  | none => simp

/-! Claims. -/

/-- Claim C8 (confirmed): every invocation of the remux step
(mergeDashVideoAudio) deletes both temporary files it wrote before
returning, on every exit path: success (execOk = true), multiplexer
failure with non-zero exit or an exception thrown during the invocation
(execOk = false; execSync signals a non-zero exit by throwing, and the
surrounding try/catch/finally treats any thrown error the same way).  The
finally block unlinks both names unconditionally, so neither temporary
file is present in the resulting file set. -/
theorem C8_merge_cleanup (execOk : Bool) (outPath : String)
    (fs0 : List String) :
    "temp_video.mp4" ∉ (mergeDashVideoAudio execOk outPath fs0).1 ∧
    "temp_audio.mp4" ∉ (mergeDashVideoAudio execOk outPath fs0).1 := by
  constructor <;>
  · intro hmem
    simp only [mergeDashVideoAudio, removeFile, List.mem_filter] at hmem
    simp at hmem

/-- Claim C9, counterexample: when the multiplexer exits non-zero
(execOk = false, execSync throws), mergeDashVideoAudio does not fail with
any error: the catch block swallows the exception after logging it with
logDebug, so the call returns normally (error component none) and no
output file exists.  The caller cannot distinguish this from success by
the call result, contradicting the claim that a RemuxError wrapping the
non-zero exit is reported to the caller.  (No RemuxError type exists
anywhere in the repository.) -/
theorem C9_counterexample :
    mergeDashVideoAudio false "final.mp4" [] = ([], none) := by decide

/-- Membership in the file set after a write: the written name or a
previously present file. -/
theorem mem_insertFile {x n : String} {fs : List String} :
    x ∈ insertFile n fs ↔ x = n ∨ x ∈ fs := by
  unfold insertFile
  by_cases h : n ∈ fs
  · rw [if_pos h]
    constructor
    · exact Or.inr
    · rintro (rfl | hx)
      · exact h
      · exact hx
  · rw [if_neg h]
    simp

/-- Claim C9 (corrected): when the external multiplexer invocation exits
non-zero, mergeDashVideoAudio catches the error and only logs it: the call
returns normally with no error surfaced to the caller, no output file is
produced (when none existed before), and the temporary files are still
cleaned up.  The failure is not retried — but neither is it reported, so
the caller cannot distinguish a failed remux from a successful one. -/
theorem C9_merge_swallows_error (outPath : String) (fs0 : List String)
    (hout : outPath ∉ fs0) :
    (mergeDashVideoAudio false outPath fs0).2 = none ∧
    outPath ∉ (mergeDashVideoAudio false outPath fs0).1 ∧
    "temp_video.mp4" ∉ (mergeDashVideoAudio false outPath fs0).1 ∧
    "temp_audio.mp4" ∉ (mergeDashVideoAudio false outPath fs0).1 := by
  refine ⟨rfl, ?_, ?_, ?_⟩
  · intro hmem
    simp only [mergeDashVideoAudio, Bool.false_eq_true, if_false, removeFile,
      List.mem_filter, bne_iff_ne, ne_eq] at hmem
    obtain ⟨⟨hmem, hne1⟩, hne2⟩ := hmem
    rw [mem_insertFile, mem_insertFile] at hmem
    rcases hmem with h | h | h
    · exact hne2 h
    · exact hne1 h
    · exact hout h
  · intro hmem
    simp only [mergeDashVideoAudio, removeFile, List.mem_filter] at hmem
    simp at hmem
  · intro hmem
    simp only [mergeDashVideoAudio, removeFile, List.mem_filter] at hmem
    simp at hmem

/-- Witness for C9_merge_swallows_error at outPath final.mp4 and an empty
initial file set. -/
theorem C9_merge_swallows_error_witness :
    (mergeDashVideoAudio false "final.mp4" []).2 = none ∧
    "final.mp4" ∉ (mergeDashVideoAudio false "final.mp4" []).1 ∧
    "temp_video.mp4" ∉ (mergeDashVideoAudio false "final.mp4" []).1 ∧
    "temp_audio.mp4" ∉ (mergeDashVideoAudio false "final.mp4" []).1 :=
  C9_merge_swallows_error "final.mp4" [] (by decide)

/-- Claim C5, counterexample: the string 5-3 is not of the claimed valid
form (its start exceeds its end), so the claim requires a parse failure —
but parseByteRange returns some (5, 3).  The source regular expression
(\d+)-(\d+) places no ordering constraint on the two numbers. -/
theorem C5_counterexample :
    parseByteRange "5-3" = some (5, 3) ∧ ¬ (5 : Nat) ≤ 3 := by decide

/-- Claim C5 (corrected): for every string of the form start-end with both
parts non-empty runs of decimal digits — with no constraint relating start
and end — parseByteRange returns the pair of their numeric values, and
conversely every input on which it does not return the failure value none
is of that textual form.  The function is total (never crashes): it is a
plain Lean function, defined for every string. -/
theorem C5_parseByteRange_roundtrip :
    (∀ d1 d2 : List Char, d1 ≠ [] → d2 ≠ [] →
        (∀ c ∈ d1, c.isDigit = true) → (∀ c ∈ d2, c.isDigit = true) →
        parseByteRange (String.mk (d1 ++ '-' :: d2)) =
          some (natOfDigits d1, natOfDigits d2)) ∧
    (∀ s : String, parseByteRange s ≠ none →
        ∃ d1 d2, s.data = d1 ++ '-' :: d2 ∧ d1 ≠ [] ∧ d2 ≠ [] ∧
          (∀ c ∈ d1, c.isDigit = true) ∧ (∀ c ∈ d2, c.isDigit = true)) :=
  ⟨parseByteRange_digits, parseByteRange_some_form⟩

/-- Witness for C5_parseByteRange_roundtrip on the digits of 12-34 and on
a non-matching input. -/
theorem C5_parseByteRange_roundtrip_witness :
    parseByteRange (String.mk (['1', '2'] ++ '-' :: ['3', '4'])) =
      some (natOfDigits ['1', '2'], natOfDigits ['3', '4']) ∧
    parseByteRange "xy" = none :=
  ⟨C5_parseByteRange_roundtrip.1 ['1', '2'] ['3', '4'] (by decide) (by decide)
    (by decide) (by decide), by decide⟩

/-- Claim C4, counterexample: the representation exReprC4 declares total
length 100 and the malformed initialization range string bogus.  The claim
requires the whole assembly to abort with a ParseError; instead the code
substitutes the fallback range [0, 0], fetches it, fetches the remainder
1-99 and returns a complete 100-byte stream.  No ParseError (nor any parse
related error path) exists in downloadDashRepresentation. -/
theorem C4_counterexample :
    parseByteRange "bogus" = none ∧
    (downloadDashRepresentation exFetchRepl exReprC4).1 = [(0, 0), (1, 99)] ∧
    (downloadDashRepresentation exFetchRepl exReprC4).2.length = 100 := by
  decide

/-- Claim C4 (corrected): a malformed segment-base byte-range string never
aborts segment assembly and raises no error.  A malformed initialization
range falls back to [0, 0], which becomes the first fetched range on every
path; in the no-total-length branch the fetched ranges after the
initialization range are exactly the collected prefetch range strings that
parse, in order — a malformed one is skipped (continue) rather than
propagated.  (Fetch failures do abort the assembly: in the source every
chunk is awaited and an HTTP error throws.) -/
theorem C4_parse_failures_do_not_abort :
    (∀ (fetch : Nat → Nat → List Nat) (repr : DashRepresentation),
        parseByteRange repr.segmentBase.rangeAttr = none →
        (downloadDashRepresentation fetch repr).1.head? = some (0, 0)) ∧
    (∀ (fetch : Nat → Nat → List Nat) (repr : DashRepresentation),
        posTotalLen repr = false →
        (downloadDashRepresentation fetch repr).1.tail =
          (collectSegRanges repr.segmentBase).filterMap parseByteRange) := by
  constructor
  · intro fetch repr h
    unfold downloadDashRepresentation
    rw [h]
    cases htl : totalLenOf repr with
    | some t =>
      simp only [Option.getD_none]
      split <;> simp
    | none => simp
  · exact downloadDash_tail_of_not_posTotal

/-- Witness for C4_parse_failures_do_not_abort: the malformed
initialization range of exReprC4 yields the fallback first fetch, and the
no-total-length representation exReprC3 fetches exactly its parseable
collected ranges after the initialization range. -/
theorem C4_parse_failures_do_not_abort_witness :
    (downloadDashRepresentation exFetchRepl exReprC4).1.head? = some (0, 0) ∧
    (downloadDashRepresentation exFetchRepl exReprC3).1.tail =
      (collectSegRanges exReprC3.segmentBase).filterMap parseByteRange :=
  ⟨C4_parse_failures_do_not_abort.1 exFetchRepl exReprC4 (by decide),
    C4_parse_failures_do_not_abort.2 exFetchRepl exReprC3 (by decide)⟩

/-- Claim C2, counterexample: the representation exReprC2 declares total
length L = 100 and its initialization range parses to [5, 9].  The two
fetched ranges are [5, 9] and [10, 99] as the claim predicts, and the
fetch oracle exFetchRepl returns exactly the requested number of bytes for
each range (5 and 90 bytes respectively) — yet the output buffer has
length 95 = L - 5, not L = 100: the claim that the output length equals L
holds only when the initialization range starts at byte 0. -/
theorem C2_counterexample :
    (downloadDashRepresentation exFetchRepl exReprC2).1 = [(5, 9), (10, 99)] ∧
    (exFetchRepl 5 9).length = 5 ∧
    (exFetchRepl 10 99).length = 90 ∧
    (downloadDashRepresentation exFetchRepl exReprC2).2.length = 95 ∧
    (95 : Nat) ≠ 100 := by
  decide

/-- Claim C2 (corrected): for a representation declaring a positive total
content length L whose initialization range parses to [s, e] (with
s ≤ e and e + 1 < L), segment assembly fetches exactly the two ranges
[s, e] and [e + 1, L - 1] in that order, and — when each range fetch
returns exactly the requested number of bytes — the output buffer begins
with the initialization chunk and has length L - s.  The length equals L
exactly in the case s = 0; in the instance of the specification,
initializationRange = [0, 999] gives the fetches [0, 999] and
[1000, L - 1] and an output of length L. -/
theorem C2_assembly_with_total_length (fetch : Nat → Nat → List Nat)
    (repr : DashRepresentation) (L s e : Nat)
    (hL : totalLenOf repr = some (L : Int)) (hL0 : 0 < L)
    (hinit : parseByteRange repr.segmentBase.rangeAttr = some (s, e))
    (hse : s ≤ e) (heL : e + 1 < L)
    (hfetch : ∀ a b, (fetch a b).length = b + 1 - a) :
    (downloadDashRepresentation fetch repr).1 = [(s, e), (e + 1, L - 1)] ∧
    (downloadDashRepresentation fetch repr).2.length = L - s ∧
    (downloadDashRepresentation fetch repr).2.take (e + 1 - s) = fetch s e := by
  unfold downloadDashRepresentation
  rw [hinit, hL]
  dsimp only [Option.getD_some]
  rw [if_pos (by exact_mod_cast hL0)]
  have hcast : ((L : Int) - 1).toNat = L - 1 := by omega
  rw [hcast]
  refine ⟨rfl, ?_, ?_⟩
  · rw [List.length_append, hfetch, hfetch]
    omega
  · exact List.take_left' (by rw [hfetch])

/-- Witness for C2_assembly_with_total_length at exReprC2 (total length
100, initialization range [5, 9]) with the exact-length fetch oracle. -/
theorem C2_assembly_with_total_length_witness :
    (downloadDashRepresentation exFetchRepl exReprC2).1 = [(5, 9), (10, 99)] ∧
    (downloadDashRepresentation exFetchRepl exReprC2).2.length = 100 - 5 ∧
    (downloadDashRepresentation exFetchRepl exReprC2).2.take (9 + 1 - 5) =
      exFetchRepl 5 9 :=
  C2_assembly_with_total_length exFetchRepl exReprC2 100 5 9 (by decide)
    (by decide) (by decide) (by decide) (by decide)
    (fun a b => by simp [exFetchRepl])

/-- Claim C3 (confirmed): in the no-positive-total-length branch, segment
assembly collects the first-segment, second-segment and prefetch range
strings in that priority order and skips the prefetch string exactly when
it is textually equal to one of the two already-collected strings (the
source tests segRanges.includes, exact string equality); the ranges
fetched after the initialization range are the collected strings that
parse, in order.  In particular, when two of the three declared strings
are textually identical, at most two distinct range strings are fetched
after the initialization range. -/
theorem C3_prefetch_dedup (fetch : Nat → Nat → List Nat)
    (repr : DashRepresentation) (a b p : String)
    (hpos : posTotalLen repr = false)
    (ha : repr.segmentBase.firstSegmentRange = some a) (ha' : a ≠ "")
    (hb : repr.segmentBase.secondSegmentRange = some b) (hb' : b ≠ "")
    (hp : repr.segmentBase.prefetchSegmentRange = some p) (hp' : p ≠ "") :
    collectSegRanges repr.segmentBase =
      (if p = a ∨ p = b then [a, b] else [a, b, p]) ∧
    (downloadDashRepresentation fetch repr).1.tail =
      (collectSegRanges repr.segmentBase).filterMap parseByteRange ∧
    ((a = b ∨ p = a ∨ p = b) →
      ((collectSegRanges repr.segmentBase).dedup).length ≤ 2) := by
  have hcoll : collectSegRanges repr.segmentBase =
      (if p = a ∨ p = b then [a, b] else [a, b, p]) := by
    unfold collectSegRanges
    rw [ha, hb, hp]
    dsimp only
    rw [if_neg ha', if_neg hb', if_neg hp']
    by_cases hmem : p = a ∨ p = b
    · rw [if_pos (by simpa using hmem), if_pos hmem]
      rfl
    · rw [if_neg (by simpa using hmem), if_neg hmem]
      rfl
  refine ⟨hcoll, downloadDash_tail_of_not_posTotal fetch repr hpos, ?_⟩
  intro hdup
  rw [hcoll]
  by_cases hmem : p = a ∨ p = b
  · rw [if_pos hmem]
    exact le_trans (List.dedup_sublist _).length_le (by simp)
  · rw [if_neg hmem]
    have hab : a = b := by
      rcases hdup with h | h | h
      · exact h
      · exact absurd (Or.inl h) hmem
      · exact absurd (Or.inr h) hmem
    subst hab
    rw [List.dedup_cons_of_mem (by simp)]
    exact le_trans (List.dedup_sublist _).length_le (by simp)

/-- Witness for C3_prefetch_dedup at exReprC3, whose second-segment range
and prefetch range are both 200-299. -/
theorem C3_prefetch_dedup_witness :
    collectSegRanges exReprC3.segmentBase =
      (if "200-299" = "100-199" ∨ "200-299" = "200-299"
        then ["100-199", "200-299"] else ["100-199", "200-299", "200-299"]) ∧
    (downloadDashRepresentation exFetchRepl exReprC3).1.tail =
      (collectSegRanges exReprC3.segmentBase).filterMap parseByteRange ∧
    (("100-199" = "200-299" ∨ "200-299" = "100-199" ∨
        ("200-299" : String) = "200-299") →
      ((collectSegRanges exReprC3.segmentBase).dedup).length ≤ 2) :=
  C3_prefetch_dedup exFetchRepl exReprC3 "100-199" "200-299" "200-299"
    (by decide) (by decide) (by decide) (by decide) (by decide) (by decide)
    (by decide)

/-- Claim C7 (confirmed): for every sequence of adaptation sets containing
exactly one set whose contentType case-insensitively equals video and
exactly one whose contentType case-insensitively equals audio,
findVideoAdaptationSet returns the video-tagged set and
findAudioAdaptationSet returns the audio-tagged set.  The statement
quantifies over all such sequences, hence over every ordering of any given
collection: the direct contentType match (Array.prototype.find) fires
before any fallback inspection, and with exactly one match the first match
is that set. -/
theorem C7_adaptation_set_selection (sets : List DashAdaptationSet)
    (v a : DashAdaptationSet)
    (hv1 : sets.countP videoTagged = 1) (hv2 : v ∈ sets)
    (hv3 : videoTagged v = true)
    (ha1 : sets.countP audioTagged = 1) (ha2 : a ∈ sets)
    (ha3 : audioTagged a = true) :
    findVideoAdaptationSet sets = .ok (some v) ∧
    findAudioAdaptationSet sets = .ok (some a) := by
  constructor
  · unfold findVideoAdaptationSet
    rw [find?_of_countP_eq_one hv1 hv2 hv3]
  · unfold findAudioAdaptationSet
    rw [find?_of_countP_eq_one ha1 ha2 ha3]

/-- Witness for C7_adaptation_set_selection on the two-set sequence
[exVideoSet, exAudioSet] (contentType Video and audio). -/
theorem C7_adaptation_set_selection_witness :
    findVideoAdaptationSet [exVideoSet, exAudioSet] = .ok (some exVideoSet) ∧
    findAudioAdaptationSet [exVideoSet, exAudioSet] = .ok (some exAudioSet) :=
  C7_adaptation_set_selection [exVideoSet, exAudioSet] exVideoSet exAudioSet
    (by decide) (by decide) (by decide) (by decide) (by decide) (by decide)

unseal List.merge List.mergeSort in
/-- Claim C6, counterexample: reprNaN carries the present, non-empty, non
numeric bandwidth attribute abc, so parseInt yields NaN (bandwidthKey
none), while repr100 has bandwidth 100.  Treating the unparseable
attribute as 0 — as the claim requires — the unique maximum-bandwidth
representation of [reprNaN, repr100] is repr100 (keyBW 100 against 0).
But the comparator returns NaN, which SortCompare treats as +0; on this
two-element input the comparator is therefore consistent (a symmetric
tie), the ECMAScript-mandated stable sort leaves the order unchanged, and
the ranking returns reprNaN, not the claimed maximum. -/
theorem C6_counterexample :
    pickBestRepresentation [reprNaN, repr100] = some reprNaN ∧
    bandwidthKey reprNaN = none ∧
    keyBW reprNaN = 0 ∧ keyBW repr100 = 100 ∧
    reprNaN ≠ repr100 := by decide

/-- Claim C6 (corrected): for every non-empty list of representations
whose bandwidth attributes are all missing, empty or parseable (so that
no comparator value is NaN and the comparator is consistent),
pickBestRepresentation returns the representation with the maximum
bandwidth, where a missing or empty attribute is treated as 0; among
several representations sharing the maximum it returns the first-listed
one (all earlier-listed representations have strictly smaller bandwidth).
Repeated calls agree because the ranking is a pure function of the list.
A representation with a present but unparseable bandwidth is outside this
guarantee: its comparisons all tie, so it keeps its position instead of
being ranked as 0. -/
theorem C6_pickBest_first_max (l : List DashRepresentation) (hne : l ≠ [])
    (hk : ∀ r ∈ l, (bandwidthKey r).isSome) :
    ∃ m, pickBestRepresentation l = some m ∧ m ∈ l ∧
      (∀ r ∈ l, keyBW r ≤ keyBW m) ∧
      ∃ p s, l = p ++ m :: s ∧ ∀ r ∈ p, keyBW r < keyBW m := by
  rw [pickBest_eq_firstMaxBy l hk]
  cases hfm : firstMaxBy keyBW l with
  | none => exact absurd (firstMaxBy_eq_none_iff.mp hfm) hne
  | some m =>
    obtain ⟨hmem, hmax, p, s, hps, hlt⟩ := firstMaxBy_spec hfm
    exact ⟨m, rfl, hmem, hmax, p, s, hps, hlt⟩

/-- Witness for C6_pickBest_first_max on [repr50, repr100, repr100]: two
representations tie at the maximal bandwidth 100 and the first-listed of
them is returned. -/
theorem C6_pickBest_first_max_witness :
    ∃ m, pickBestRepresentation [repr50, repr100, repr100] = some m ∧
      m ∈ [repr50, repr100, repr100] ∧
      (∀ r ∈ [repr50, repr100, repr100], keyBW r ≤ keyBW m) ∧
      ∃ p s, [repr50, repr100, repr100] = p ++ m :: s ∧
        ∀ r ∈ p, keyBW r < keyBW m :=
  C6_pickBest_first_max [repr50, repr100, repr100] (by decide) (by decide)

/-- Claim C10, counterexample.  First conjunct: exLeafBoth is a video leaf
(is_video, DASH manifest present) that also has a display resource; with
every download succeeding, the resolver saves p.mp4 through the video
branch and then also runs the image branch and saves p.jpg, returning
count 2 — the image branch is a sequential plain if in the source, not an
else-if alternative of the video branch, so the claimed mutual exclusivity
fails.  Second conjunct: for an image-only leaf whose download returns a
non-2xx response (softFail), downloadHighestResImage returns without
saving and the caller still increments the count: count 1 with no file
produced, against the claimed increment on success. -/
theorem C10_counterexample :
    extractMediaRecursive envAllOk exLeafBoth "p" = .ok (["p.mp4", "p.jpg"], 2) ∧
    extractMediaRecursive envAllSoft exLeafImage "p" = .ok ([], 1) := by
  decide

/-- Claim C10 (corrected): for every leaf with at least one display
resource the image branch runs — whether or not the leaf is also a video,
the two branches being sequential rather than exclusive.  The selection
step picks the display resource with the maximum width, the
first-encountered one among ties (in particular width 1080 among
[150, 1080, 640]), and the download is saved as baseName + .jpg; the
count is incremented whenever the image step returns, which includes a
2xx save (for a non-video leaf: result exactly ([baseName.jpg], 1)), and
for a video leaf with a succeeding DASH download both files are produced
with count 2. -/
theorem C10_image_selection_and_branch :
    (∀ (d : InstagramDisplayResource) (t : List InstagramDisplayResource),
        ∃ m, bestDisplayResource (d :: t) = some m ∧ m ∈ d :: t ∧
          (∀ x ∈ d :: t, x.config_width ≤ m.config_width) ∧
          ∃ p s, d :: t = p ++ m :: s ∧
            ∀ x ∈ p, x.config_width < m.config_width) ∧
    bestDisplayResource
        [{ src := "a", config_width := 150 }, { src := "b", config_width := 1080 },
          { src := "c", config_width := 640 }] =
      some { src := "b", config_width := 1080 } ∧
    (∀ (env : String → Outcome) (nm : String) (dm vu : Option String)
        (d : InstagramDisplayResource) (t : List InstagramDisplayResource),
        env (nm ++ ".jpg") = .ok →
        extractMediaRecursive env (.mk none false dm vu (d :: t)) nm =
          .ok ([nm ++ ".jpg"], 1)) ∧
    (∀ (env : String → Outcome) (nm : String) (dm vu : Option String)
        (d : InstagramDisplayResource) (t : List InstagramDisplayResource),
        jsTruthyS dm = true → env (nm ++ ".mp4") = .ok →
        env (nm ++ ".jpg") = .ok →
        extractMediaRecursive env (.mk none true dm vu (d :: t)) nm =
          .ok ([nm ++ ".mp4", nm ++ ".jpg"], 2)) := by
  refine ⟨fun d t => bestDisplayResource_spec d t, by decide, ?_, ?_⟩
  · intro env nm dm vu d t hjpg
    simp only [extractMediaRecursive, Bool.false_eq_true, if_false,
      List.isEmpty_cons, hjpg]
    rfl
  · intro env nm dm vu d t hdm hmp4 hjpg
    simp only [extractMediaRecursive, hdm, if_true, hmp4, hjpg,
      List.isEmpty_cons]
    rfl

/-- Witness for C10_image_selection_and_branch: the selection property at
the display resources of widths 150 and 1080, and the non-video image
equation for exLeafImage under the all-ok environment. -/
theorem C10_image_selection_and_branch_witness :
    (∃ m, bestDisplayResource
          [{ src := "a", config_width := 150 },
            ({ src := "b", config_width := 1080 } : InstagramDisplayResource)] =
        some m ∧
      m ∈ [{ src := "a", config_width := 150 },
            ({ src := "b", config_width := 1080 } : InstagramDisplayResource)] ∧
      (∀ x ∈ [{ src := "a", config_width := 150 },
            ({ src := "b", config_width := 1080 } : InstagramDisplayResource)],
          x.config_width ≤ m.config_width) ∧
      ∃ p s, [{ src := "a", config_width := 150 },
            ({ src := "b", config_width := 1080 } : InstagramDisplayResource)] =
          p ++ m :: s ∧ ∀ x ∈ p, x.config_width < m.config_width) ∧
    extractMediaRecursive envAllOk
        (.mk none false none none [{ src := "s", config_width := 7 }]) "p" =
      .ok (["p.jpg"], 1) :=
  ⟨C10_image_selection_and_branch.1 { src := "a", config_width := 150 }
      [{ src := "b", config_width := 1080 }],
    C10_image_selection_and_branch.2.2.1 envAllOk "p" none none
      { src := "s", config_width := 7 } [] rfl⟩

/-- Claim C1, counterexample.  First two conjuncts: in the carousel
exCarouselC1 the first child is a DASH video leaf whose download throws
(envThrow1 resolves p_1.mp4 to an exception) and the second child is an
image leaf that succeeds on its own under its positional name.  The
carousel loop has no try/catch, so the whole resolve call propagates the
exception: the remaining sibling is not processed and no count is
returned, contradicting the claim that one failing child leaves the
remaining siblings processed.  Third conjunct: exCarouselBoth is a
carousel of N = 1 leaf to which both the video and the image branch apply;
with all downloads succeeding the walk returns 2 ≠ N. -/
theorem C1_counterexample :
    extractMediaRecursive envThrow1 exCarouselC1 "p" = .error () ∧
    extractMediaRecursive envThrow1 exLeafImage "p_2" = .ok (["p_2.jpg"], 1) ∧
    extractMediaRecursive envAllOk exCarouselBoth "p" =
      .ok (["p_1.mp4", "p_1.jpg"], 2) := by
  decide

/-- Claim C1 (corrected): the resolver walks a carousel by recursing into
the child at 0-based index i under the name baseName_(i+1) and summing
the returned counts — when every child returns normally, the result is
exactly the concatenation of the per-child files and the sum of the
per-child counts (the carousel node itself contributing nothing).  When
every underlying download succeeds and every leaf has exactly one
applicable media branch, a carousel of N leaves returns exactly N.  A
failure that the source catches (a thrown direct video_url download)
produces a zero count for that child and leaves the siblings processed;
but a thrown failure inside an uncaught branch (such as the DASH path of
the first child) aborts the remaining siblings and propagates to the
caller, so the returned total does not in general reflect the remaining
successfully produced files. -/
theorem C1_carousel_walk (env : String → Outcome) (base : String) (iv : Bool)
    (dm vu : Option String) (drs : List InstagramDisplayResource) :
    (∀ (cs : List InstagramMediaItem) (rs : List (List String × Nat)),
        childResults env cs base 1 = some rs →
        extractMediaRecursive env (.mk (some cs) iv dm vu drs) base =
          .ok ((rs.map Prod.fst).flatten, (rs.map Prod.snd).sum)) ∧
    (∀ (cs : List InstagramMediaItem), (∀ s, env s = .ok) →
        (∀ c ∈ cs, simpleLeaf c = true) →
        ∃ fs, extractMediaRecursive env (.mk (some cs) iv dm vu drs) base =
          .ok (fs, cs.length)) ∧
    (∀ (c : InstagramMediaItem) (rest : List InstagramMediaItem),
        extractMediaRecursive env c (base ++ "_" ++ toString 1) = .error () →
        extractMediaRecursive env (.mk (some (c :: rest)) iv dm vu drs) base =
          .error ()) ∧
    (∀ u : String, jsTruthyS (some u) = true →
        env (base ++ ".mp4") = .thrown →
        extractMediaRecursive env (.mk none true none (some u) []) base =
          .ok ([], 0)) := by
  refine ⟨?_, ?_, ?_, ?_⟩
  · intro cs rs h
    rw [extract_carousel_eq]
    exact extractChildren_of_childResults env base cs 1 rs h
  · intro cs hok hsl
    rw [extract_carousel_eq]
    exact extractChildren_all_simple env hok base cs 1 hsl
  · intro c rest h
    rw [extract_carousel_eq]
    simp only [extractChildren, h]
    rfl
  · intro u hu henv
    simp only [jsTruthyS] at hu
    simp only [extractMediaRecursive, jsTruthyS, hu, henv, Bool.false_eq_true,
      if_false, if_true, List.isEmpty_nil]
    rfl

/-- Witness for C1_carousel_walk: under the all-ok environment, the
carousel of the two single-branch leaves [exLeafVideo, exLeafImage]
returns count 2 = N. -/
theorem C1_carousel_walk_witness :
    ∃ fs, extractMediaRecursive envAllOk
        (.mk (some [exLeafVideo, exLeafImage]) false none none []) "p" =
      .ok (fs, ([exLeafVideo, exLeafImage] : List InstagramMediaItem).length) :=
  (C1_carousel_walk envAllOk "p" false none none []).2.1
    [exLeafVideo, exLeafImage] (fun s => rfl) (by decide)

/-- Witness for C8_merge_cleanup: after a failed invocation over an empty
initial file set, neither temporary file remains. -/
theorem C8_merge_cleanup_witness :
    "temp_video.mp4" ∉ (mergeDashVideoAudio false "final.mp4" []).1 ∧
    "temp_audio.mp4" ∉ (mergeDashVideoAudio false "final.mp4" []).1 :=
  C8_merge_cleanup false "final.mp4" []
